import Mathlib

/-!
Verification of the attendance punch & session-lifecycle engine of the
`imt8-attendance` backend (FastAPI + MySQL).

The embedding models the session table (`job_activity`), the account and
job-assignment tables, and the mutating endpoints of
`backend/endpoints/attendance.py`, the auto-close sweep of
`backend/core/scheduler.py`, and the aggregation queries of
`backend/endpoints/attendance.py` (summary) and
`backend/endpoints/leaderboards.py`.

Conventions of the embedding:
* Instants are `Int` seconds since the MySQL zero date `0000-00-00 00:00:00`,
  so the legacy "zero-date" sentinel stored in `time_out` is the value `0`,
  and every genuine timestamp (year ≥ 1) is positive.
* `time_out` is `Option Int`: `none` is SQL `NULL`, `some 0` is the legacy
  sentinel.  The SQL open-session predicate
  `time_out IS NULL OR CAST(time_out AS CHAR) = '0000-00-00 00:00:00'`
  is `isOpenTO`.
* The configured IANA timezone (`settings.TIMEZONE`, default `Asia/Manila`,
  a fixed UTC+8 zone with no DST) is modelled by its offset in seconds;
  the local calendar date of an instant is floor division of the shifted
  instant by 86400 (Python's `astimezone(tz).date()` on this linear model).
* MySQL `TIMESTAMPDIFF(MINUTE, a, b)` counts whole minutes, truncating
  toward zero (`Int.tdiv`).
-/

namespace Attendance

/-- Absolute instant: seconds since the zero date `0000-00-00 00:00:00`. -/
abbrev Time := Int

/-- Seconds in one civil day. -/
def secPerDay : Int := 86400

/-- The open-session predicate used throughout `attendance.py` and
`scheduler.py`:
`time_out IS NULL OR CAST(time_out AS CHAR) = '0000-00-00 00:00:00'`. -/
def isOpenTO : Option Time → Bool
  | none => true
  | some t => t == 0

/-- One row of the `job_activity` table.  `autoClosed` is the
`properties.auto_closed` JSON flag written by the sweeper; `jobId`/`jobName`
are the `properties.job_information` snapshot written at punch-in. -/
structure Session where
  id : Nat
  accountId : Nat
  timeIn : Time
  timeOut : Option Time
  invalidatedAt : Option Time
  invalidationNotes : Option String
  autoClosed : Bool
  jobId : Option Nat
  jobName : Option String
  createdAt : Time
  updatedAt : Time
deriving Repr, DecidableEq

/-- A session is open iff its `time_out` is NULL or the legacy sentinel. -/
def Session.isOpen (s : Session) : Bool := isOpenTO s.timeOut

/-- One row of the `accounts` table (the fields the punch flow reads). -/
structure Account where
  id : Nat
  schoolId : String
  role : String
  suspendedAt : Option Time
deriving Repr, DecidableEq

/-- One row of the `account_jobs ⋈ jobs` join: the account's assignment. -/
structure JobAssignment where
  accountId : Nat
  jobId : Nat
  jobName : String
deriving Repr, DecidableEq

/-- The mutable database state read and written by the endpoints.
`nextId` models MySQL's auto-increment counter for `job_activity.id`. -/
structure DB where
  accounts : List Account
  jobs : List JobAssignment
  sessions : List Session
  nextId : Nat
deriving Repr, DecidableEq

/-- Local calendar date (days since the zero date, in the configured zone of
offset `off` seconds east of UTC): floor of the shifted instant.  For the
positive divisor 86400, Lean's Euclidean `/` on `Int` is floor division. -/
def localDate (off : Int) (t : Time) : Int := (t + off) / secPerDay

/-- The absolute instant of 23:00 local civil time on the local calendar day
of `runAt` (scheduler.py: `current_tz.localize(datetime.combine(now_local.date(),
time(23, 0)))` converted to UTC). -/
def cutoffFor (off : Int) (runAt : Time) : Time :=
  localDate off runAt * secPerDay + 23 * 3600 - off

/-- MySQL `TIMESTAMPDIFF(MINUTE, a, b)`: whole minutes, truncated toward zero. -/
def tdiffMin (a b : Time) : Int := (b - a).tdiv 60

/-! ## Punch engine (`attendance.py`, `punch`) -/

/-- The error outcomes of the punch endpoint. -/
inductive PunchError where
  | accountNotFound
  | accountSuspended
  | earlyTimeoutWarning
  | accountJobless
deriving Repr, DecidableEq

/-- The success status of the punch endpoint. -/
inductive PunchStatus where
  | timeIn
  | timeOut
deriving Repr, DecidableEq

/-- Query `SELECT ... FROM accounts WHERE school_id = %s AND (role = 'student'
OR role = 'manager')` — first matching row. -/
def findPunchAccount (db : DB) (sid : String) : Option Account :=
  db.accounts.find? fun a =>
    a.schoolId == sid && (a.role == "student" || a.role == "manager")

/-- Query `SELECT aj.job_id, j.name FROM account_jobs aj JOIN jobs j ... WHERE
aj.account_id = %s LIMIT 1`. -/
def currentJob (db : DB) (aid : Nat) : Option JobAssignment :=
  db.jobs.find? fun j => j.accountId == aid

/-- The open sessions of an account, in table order. -/
def openSessionsOf (db : DB) (aid : Nat) : List Session :=
  db.sessions.filter fun s => s.accountId == aid && s.isOpen

/-- Fold computing `ORDER BY time_in DESC LIMIT 1`: the element with the
largest `time_in` (first such element on ties). -/
def maxByTimeIn (init : Option Session) (l : List Session) : Option Session :=
  l.foldl
    (fun best s =>
      match best with
      | none => some s
      | some b => if b.timeIn < s.timeIn then some s else some b)
    init

/-- Query `SELECT time_in FROM job_activity WHERE account_id = %s AND (time_out
IS NULL OR ... sentinel) ORDER BY time_in DESC LIMIT 1`. -/
def latestOpen (db : DB) (aid : Nat) : Option Session :=
  maxByTimeIn none (openSessionsOf db aid)

/-- The strict day check on the fetched candidate (attendance.py lines
102-113): a latest open session from a previous local day is discarded and
treated as "no active session". -/
def activeSameDay (off : Int) (db : DB) (aid : Nat) (now : Time) :
    Option Session :=
  match latestOpen db aid with
  | some s =>
    if localDate off s.timeIn == localDate off now then some s else none
  | none => none

/-- The invalidation note written by the forced early time-out branch. -/
def earlyTimeoutNotes : String := "Timed out too early (< 10 mins)"

/-- The time-out `UPDATE`: every open session of the account gets
`time_out = now, updated_at = now` (the SQL `WHERE` is only
`account_id = %s AND <open>`), plus the invalidation columns when the
forced-early branch added them to the `SET` list. -/
def closeOpenSessions (db : DB) (aid : Nat) (now : Time) (inval : Bool) : DB :=
  { db with
    sessions := db.sessions.map fun s =>
      if s.accountId == aid && s.isOpen then
        { s with
          timeOut := some now
          updatedAt := now
          invalidatedAt := if inval then some now else s.invalidatedAt
          invalidationNotes := if inval then some earlyTimeoutNotes
                               else s.invalidationNotes }
      else s }

/-- The fresh row inserted by the time-in branch. -/
def newSession (nid : Nat) (aid : Nat) (now : Time) (j : JobAssignment) :
    Session :=
  { id := nid
    accountId := aid
    timeIn := now
    timeOut := none
    invalidatedAt := none
    invalidationNotes := none
    autoClosed := false
    jobId := some j.jobId
    jobName := some j.jobName
    createdAt := now
    updatedAt := now }

/-- The `POST /attendance/punch` endpoint (`punch` in `attendance.py`):
resolve the account, fetch the latest open session, apply the strict
same-local-day check, then either time out (with the <10-minute guard) or
time in (requiring a job assignment). -/
def punch (off : Int) (db : DB) (sid : String) (now : Time) (force : Bool) :
    Except PunchError (PunchStatus × DB) :=
  match findPunchAccount db sid with
  | none => .error .accountNotFound
  | some a =>
    if a.suspendedAt.isSome then .error .accountSuspended
    else
      match activeSameDay off db a.id now with
      | some s =>
        -- duration_minutes < 10  ⟺  elapsed seconds < 600
        if now - s.timeIn < 600 then
          if !force then .error .earlyTimeoutWarning
          else .ok (.timeOut, closeOpenSessions db a.id now true)
        else .ok (.timeOut, closeOpenSessions db a.id now false)
      | none =>
        match currentJob db a.id with
        | none => .error .accountJobless
        | some j =>
          .ok (.timeIn,
            { db with
              sessions := db.sessions ++ [newSession db.nextId a.id now j]
              nextId := db.nextId + 1 })

/-! ## Auto-close sweeper (`scheduler.py`, `auto_close_sessions`) -/

/-- Per-row effect of the sweep `UPDATE`: open rows with `time_in < cutoff`
get `time_out = cutoff`, `updated_at = runAt` and `properties.auto_closed =
true`; every other row is untouched. -/
def sweepClose (cutoff runAt : Time) (s : Session) : Session :=
  if s.isOpen = true ∧ s.timeIn < cutoff then
    { s with timeOut := some cutoff, updatedAt := runAt, autoClosed := true }
  else s

/-- Sweep `auto_close_sessions`: computes the 23:00-local cutoff for the run day
and closes every stale open session. -/
def autoCloseSessions (off : Int) (db : DB) (runAt : Time) : DB :=
  { db with sessions := db.sessions.map (sweepClose (cutoffFor off runAt) runAt) }

/-! ## Session maintenance (`attendance.py`, single-id endpoints) -/

/-- Error outcomes of the maintenance endpoints. -/
inductive ApiError where
  | notFound
  | noFields
deriving Repr, DecidableEq

/-- Body of `PUT /attendance/{id}` (`ActivityUpdate`). -/
structure ActivityUpdate where
  timeIn : Option Time
  timeOut : Option Time
  invalidationNotes : Option String
deriving Repr, DecidableEq

/-- The column overwrites of `update_activity`: each provided field is added
to the `SET` list, plus `updated_at = now`. -/
def applyActivityUpdate (u : ActivityUpdate) (now : Time) (s : Session) :
    Session :=
  let s1 := match u.timeIn with
    | some t => { s with timeIn := t }
    | none => s
  let s2 := match u.timeOut with
    | some t => { s1 with timeOut := some t }
    | none => s1
  let s3 := match u.invalidationNotes with
    | some n => { s2 with invalidationNotes := some n }
    | none => s2
  { s3 with updatedAt := now }

/-- Endpoint `PUT /attendance/{id}` (`update_activity`): 404 if the row is missing,
400 if no field is provided, else a direct unvalidated overwrite. -/
def updateActivity (db : DB) (actId : Nat) (u : ActivityUpdate) (now : Time) :
    Except ApiError DB :=
  match db.sessions.find? (fun s => s.id == actId) with
  | none => .error .notFound
  | some _ =>
    if u.timeIn.isNone && u.timeOut.isNone && u.invalidationNotes.isNone then
      .error .noFields
    else
      .ok { db with
            sessions := db.sessions.map fun s =>
              if s.id == actId then applyActivityUpdate u now s else s }

/-- Endpoint `PUT /attendance/{id}/invalidate` (`invalidate_activity`): if the found
row's `time_out` is NULL or the zero-date sentinel, the single `UPDATE` also
auto-fills `time_out = time_in + 30 minutes`; otherwise only the
invalidation columns are set. -/
def invalidateActivity (db : DB) (actId : Nat) (notes : String) (now : Time) :
    Except ApiError DB :=
  match db.sessions.find? (fun s => s.id == actId) with
  | none => .error .notFound
  | some a =>
    if isOpenTO a.timeOut then
      .ok { db with
            sessions := db.sessions.map fun s =>
              if s.id == actId then
                { s with
                  invalidatedAt := some now
                  invalidationNotes := some notes
                  timeOut := some (a.timeIn + 30 * 60)
                  updatedAt := now }
              else s }
    else
      .ok { db with
            sessions := db.sessions.map fun s =>
              if s.id == actId then
                { s with
                  invalidatedAt := some now
                  invalidationNotes := some notes
                  updatedAt := now }
              else s }

/-- Endpoint `PUT /attendance/{id}/revalidate` (`revalidate_activity`). -/
def revalidateActivity (db : DB) (actId : Nat) (now : Time) :
    Except ApiError DB :=
  match db.sessions.find? (fun s => s.id == actId) with
  | none => .error .notFound
  | some _ =>
    .ok { db with
          sessions := db.sessions.map fun s =>
            if s.id == actId then
              { s with invalidatedAt := none, invalidationNotes := none
                       updatedAt := now }
            else s }

/-- Endpoint `DELETE /attendance/{id}` (`delete_activity`). -/
def deleteActivity (db : DB) (actId : Nat) : Except ApiError DB :=
  match db.sessions.find? (fun s => s.id == actId) with
  | none => .error .notFound
  | some _ =>
    .ok { db with sessions := db.sessions.filter fun s => !(s.id == actId) }

/-! ## Bulk operations (`attendance.py`, `/bulk/...`) -/

/-- Endpoint `POST /attendance/bulk/close` (`bulk_close`): empty id list is a no-op;
otherwise one `UPDATE` closing the listed rows that are still open. -/
def bulkClose (db : DB) (ids : List Nat) (now : Time) : DB :=
  if ids = [] then db
  else
    { db with
      sessions := db.sessions.map fun s =>
        if s.id ∈ ids ∧ s.isOpen = true then
          { s with timeOut := some now, updatedAt := now }
        else s }

/-- Endpoint `POST /attendance/bulk/invalidate` (`bulk_invalidate`): first `UPDATE`
auto-fills `time_out = DATE_ADD(time_in, INTERVAL 30 MINUTE)` for listed rows
that are still open, second `UPDATE` invalidates every listed row. -/
def bulkInvalidate (db : DB) (ids : List Nat) (notes : String) (now : Time) :
    DB :=
  if ids = [] then db
  else
    { db with
      sessions :=
        (db.sessions.map fun s =>
          if s.id ∈ ids ∧ s.isOpen = true then
            { s with timeOut := some (s.timeIn + 30 * 60), updatedAt := now }
          else s).map fun s =>
          if s.id ∈ ids then
            { s with invalidatedAt := some now
                     invalidationNotes := some notes
                     updatedAt := now }
          else s }

/-- Endpoint `POST /attendance/bulk/revalidate` (`bulk_revalidate`). -/
def bulkRevalidate (db : DB) (ids : List Nat) (now : Time) : DB :=
  if ids = [] then db
  else
    { db with
      sessions := db.sessions.map fun s =>
        if s.id ∈ ids then
          { s with invalidatedAt := none, invalidationNotes := none
                   updatedAt := now }
        else s }

/-- Endpoint `POST /attendance/bulk/delete` (`bulk_delete`). -/
def bulkDelete (db : DB) (ids : List Nat) : DB :=
  if ids = [] then db
  else { db with sessions := db.sessions.filter fun s => decide (s.id ∉ ids) }

/-- Endpoint `POST /attendance/bulk/adjust` (`bulk_adjust`): empty id list is a no-op
success; 400 when neither timestamp is provided; otherwise a raw overwrite
of the listed rows. -/
def bulkAdjust (db : DB) (ids : List Nat) (tIn tOut : Option Time)
    (now : Time) : Except ApiError DB :=
  if ids = [] then .ok db
  else if tIn.isNone && tOut.isNone then .error .noFields
  else
    .ok { db with
          sessions := db.sessions.map fun s =>
            if s.id ∈ ids then
              let s1 := match tIn with
                | some t => { s with timeIn := t }
                | none => s
              let s2 := match tOut with
                | some t => { s1 with timeOut := some t }
                | none => s1
              { s2 with updatedAt := now }
            else s }

/-! ## Aggregation views -/

/-- Expression `COALESCE(NULLIF(CAST(time_out AS CHAR), '0000-00-00 00:00:00'),
UTC_TIMESTAMP())` of the summary query: open sessions (NULL or sentinel)
count as running until `now`. -/
def effectiveOut (now : Time) : Option Time → Time
  | none => now
  | some t => if t = 0 then now else t

/-- Endpoint `GET /attendance/summary`: total minutes of one account (no date or
department filter supplied, i.e. `WHERE 1=1`): sums
`TIMESTAMPDIFF(MINUTE, time_in, COALESCE(..., UTC_TIMESTAMP()))` over every
session of the account — with no `invalidated_at` condition. -/
def summaryTotalMinutes (db : DB) (aid : Nat) (now : Time) : Int :=
  ((db.sessions.filter fun s => s.accountId == aid).map
    (fun s => tdiffMin s.timeIn (effectiveOut now s.timeOut))).sum

/-- Per-session contribution in the leaderboard query:
`CASE WHEN time_out IS NOT NULL AND YEAR(time_out) > 0 THEN
TIMESTAMPDIFF(MINUTE, time_in, time_out) ELSE 0 END`
(any instant in year ≥ 1 is positive in this encoding). -/
def lbSessionMinutes (s : Session) : Int :=
  match s.timeOut with
  | some t => if 0 < t then tdiffMin s.timeIn t else 0
  | none => 0

/-- Endpoint `GET /leaderboards/top-performers`: activity minutes of one account (no
date filter): the `LEFT JOIN job_activity ... AND ja.invalidated_at IS NULL`
restricts the summed rows to non-invalidated sessions. -/
def lbTotalMinutes (db : DB) (aid : Nat) : Int :=
  ((db.sessions.filter fun s =>
      s.accountId == aid && s.invalidatedAt.isNone).map
    lbSessionMinutes).sum

/-- The limit clamp at the top of `get_top_performers`:
`if limit > 100: limit = 100` then `if limit < 1: limit = 10`. -/
def clampLimit (limit : Int) : Int :=
  let l1 := if limit > 100 then 100 else limit
  if l1 < 1 then 10 else l1

/-! ## Operation sequences -/

/-- One mutating operation of the system, for stating state-machine
invariants over arbitrary operation sequences. -/
inductive Op where
  | punchOp (sid : String) (now : Time) (force : Bool)
  | sweepOp (runAt : Time)
  | updateOp (actId : Nat) (u : ActivityUpdate) (now : Time)
  | invalidateOp (actId : Nat) (notes : String) (now : Time)
  | revalidateOp (actId : Nat) (now : Time)
  | deleteOp (actId : Nat)
  | bulkCloseOp (ids : List Nat) (now : Time)
  | bulkInvalidateOp (ids : List Nat) (notes : String) (now : Time)
  | bulkRevalidateOp (ids : List Nat) (now : Time)
  | bulkDeleteOp (ids : List Nat)
  | bulkAdjustOp (ids : List Nat) (tIn tOut : Option Time) (now : Time)
deriving Repr, DecidableEq

/-- Apply one operation; an endpoint that raises an HTTP error leaves the
database unchanged. -/
def applyOp (off : Int) (db : DB) : Op → DB
  | .punchOp sid now force =>
    match punch off db sid now force with
    | .ok (_, db') => db'
    | .error _ => db
  | .sweepOp runAt => autoCloseSessions off db runAt
  | .updateOp actId u now =>
    match updateActivity db actId u now with
    | .ok db' => db'
    | .error _ => db
  | .invalidateOp actId notes now =>
    match invalidateActivity db actId notes now with
    | .ok db' => db'
    | .error _ => db
  | .revalidateOp actId now =>
    match revalidateActivity db actId now with
    | .ok db' => db'
    | .error _ => db
  | .deleteOp actId =>
    match deleteActivity db actId with
    | .ok db' => db'
    | .error _ => db
  | .bulkCloseOp ids now => bulkClose db ids now
  | .bulkInvalidateOp ids notes now => bulkInvalidate db ids notes now
  | .bulkRevalidateOp ids now => bulkRevalidate db ids now
  | .bulkDeleteOp ids => bulkDelete db ids
  | .bulkAdjustOp ids tIn tOut now =>
    match bulkAdjust db ids tIn tOut now with
    | .ok db' => db'
    | .error _ => db

/-- Run a sequence of operations left to right. -/
def runOps (off : Int) (db : DB) (ops : List Op) : DB :=
  ops.foldl (applyOp off) db

/-- Number of open sessions an account currently has. -/
def openCount (db : DB) (aid : Nat) : Nat :=
  (openSessionsOf db aid).length

/-! ## Invariant vocabulary -/

/-- Number of open sessions of account `aid` whose `time_in` falls on local
calendar day `d`. -/
def openOnDayCount (off : Int) (db : DB) (aid : Nat) (d : Int) : Nat :=
  db.sessions.countP fun s =>
    s.accountId == aid && s.isOpen && (localDate off s.timeIn == d)

/-- Ordering invariant of a single row: whenever `time_out` holds a genuine
(non-sentinel) instant, it is not earlier than `time_in`. -/
def durOK (s : Session) : Prop :=
  ∀ t, s.timeOut = some t → t ≠ 0 → s.timeIn ≤ t

/-- Operations whose `SET` lists never overwrite `time_in` and never write a
raw caller-chosen `time_out`: everything except the unvalidated direct edits
`update_activity` and `bulk_adjust`. -/
def opSafe : Op → Bool
  | .updateOp _ _ _ => false
  | .bulkAdjustOp _ _ _ _ => false
  | _ => true

/-- The wall-clock instant an operation runs at (`datetime.now`), when it
takes one. -/
def opTime : Op → Option Time
  | .punchOp _ now _ => some now
  | .sweepOp runAt => some runAt
  | .updateOp _ _ now => some now
  | .invalidateOp _ _ now => some now
  | .revalidateOp _ now => some now
  | .deleteOp _ => none
  | .bulkCloseOp _ now => some now
  | .bulkInvalidateOp _ _ now => some now
  | .bulkRevalidateOp _ now => some now
  | .bulkDeleteOp _ => none
  | .bulkAdjustOp _ _ _ now => some now

/-- The operation times of a sequence are nondecreasing, starting at or
after `T` (the wall clock never runs backwards during the sequence). -/
def chronFrom (T : Time) : List Op → Prop
  | [] => True
  | op :: rest =>
    match opTime op with
    | none => chronFrom T rest
    | some t => T ≤ t ∧ chronFrom t rest

/-- State invariant carried through an operation sequence: `T` bounds every
`time_in` from above, instants are nonnegative (they lie at or after the
zero date), and each account has at most one open session per local day. -/
def Inv (off : Int) (T : Time) (db : DB) : Prop :=
  0 ≤ T ∧ (∀ s ∈ db.sessions, 0 ≤ s.timeIn ∧ s.timeIn ≤ T) ∧
    ∀ aid d, openOnDayCount off db aid d ≤ 1

/-! ## Concrete instances used by counterexamples and witnesses

The timezone is the default `Asia/Manila` (UTC+8, `offMnl = 28800` seconds,
no DST).  Instants are small round numbers; local day `0` is the civil day
containing instant `0`. -/

/-- UTC offset of the default configured timezone `Asia/Manila`. -/
def offMnl : Int := 28800

/-- A student account with school id `"S1"`. -/
def acct1 : Account :=
  { id := 1, schoolId := "S1", role := "student", suspendedAt := none }

/-- Initial store: one student with a job assignment and no sessions. -/
def db0 : DB :=
  { accounts := [acct1]
    jobs := [{ accountId := 1, jobId := 7, jobName := "Helper" }]
    sessions := []
    nextId := 1 }

/-- Punch in on local day 0 (instant 0) and again on local day 1
(instant 86400): the stale day-0 session is ignored by the day guard, so a
second session is opened. -/
def opsTwoPunches : List Op :=
  [.punchOp "S1" 0 false, .punchOp "S1" 86400 false]

/-- The same two punch-ins followed by a punch-out 20 minutes into day 1. -/
def opsThreePunches : List Op :=
  opsTwoPunches ++ [.punchOp "S1" 87600 false]

/-- Store with one session opened at instant 86400 (local day 1). -/
def dbOpen : DB := runOps offMnl db0 [.punchOp "S1" 86400 false]

/-- The same store after the account lost its job assignment mid-session. -/
def dbJobless : DB := { dbOpen with jobs := [] }

/-- The session row held by `dbOpen` (opened at instant 86400 on day 1). -/
def sessDay1 : Session :=
  newSession 1 1 86400 { accountId := 1, jobId := 7, jobName := "Helper" }

/-- Store with one session opened at 22:50 local on day 0
(instant `53400 = 22*3600 + 50*60 - 28800`), never punched out. -/
def dbStale : DB := runOps offMnl db0 [.punchOp "S1" 53400 false]

/-- A closed, never-invalidated session (60 minutes long). -/
def sessClosed : Session :=
  { id := 1, accountId := 1, timeIn := 1000, timeOut := some 2000
    invalidatedAt := none, invalidationNotes := none, autoClosed := false
    jobId := none, jobName := none, createdAt := 1000, updatedAt := 1000 }

/-- An open session of the same account. -/
def sessOpen2 : Session :=
  { id := 2, accountId := 1, timeIn := 4000, timeOut := none
    invalidatedAt := none, invalidationNotes := none, autoClosed := false
    jobId := none, jobName := none, createdAt := 4000, updatedAt := 4000 }

/-- A mixed store: one closed and one open session. -/
def dbMixed : DB :=
  { accounts := [], jobs := [], sessions := [sessClosed, sessOpen2]
    nextId := 3 }

/-- An invalidated closed session, 60 minutes long. -/
def sessInvalid : Session :=
  { id := 1, accountId := 1, timeIn := 0, timeOut := some 3600
    invalidatedAt := some 5000, invalidationNotes := some "bad"
    autoClosed := false, jobId := none, jobName := none
    createdAt := 0, updatedAt := 0 }

/-- A store whose only session is invalidated. -/
def dbInvalidated : DB :=
  { accounts := [], jobs := [], sessions := [sessInvalid], nextId := 2 }

/-- A store with a single closed session, target of the direct edits. -/
def dbAdj : DB :=
  { accounts := [], jobs := [], sessions := [sessClosed], nextId := 2 }

/-- The update body `{time_out: 500}` (earlier than the row's `time_in`). -/
def updEarlyOut : ActivityUpdate :=
  { timeIn := none, timeOut := some 500, invalidationNotes := none }

/-! ## General lemmas about the embedding -/

theorem countP_map_le (f : Session → Session) (p : Session → Bool)
    (h : ∀ s, p (f s) = true → p s = true) (l : List Session) :
    (l.map f).countP p ≤ l.countP p := by
  induction l with
  | nil => simp
  | cons a l ih =>
    simp only [List.map_cons, List.countP_cons]
    by_cases hpa : p (f a) = true
    · rw [if_pos hpa, if_pos (h a hpa)]
      omega
    · rw [if_neg hpa]
      split <;> omega

theorem localDate_mono (off : Int) {a b : Time} (h : a ≤ b) :
    localDate off a ≤ localDate off b := by
  unfold localDate
  apply Int.ediv_le_ediv
  · norm_num [secPerDay]
  · exact add_le_add_right h off

theorem maxByTimeIn_cons_none (x : Session) (l : List Session) :
    maxByTimeIn none (x :: l) = maxByTimeIn (some x) l := rfl

theorem maxByTimeIn_cons_some (a x : Session) (l : List Session) :
    maxByTimeIn (some a) (x :: l) =
      maxByTimeIn (if a.timeIn < x.timeIn then some x else some a) l := rfl

theorem maxByTimeIn_spec (l : List Session) :
    ∀ (init : Option Session) (b : Session), maxByTimeIn init l = some b →
      (b ∈ l ∨ init = some b) ∧
      (∀ x ∈ l, x.timeIn ≤ b.timeIn) ∧
      (∀ a, init = some a → a.timeIn ≤ b.timeIn) := by
  induction l with
  | nil =>
    intro init b h
    refine ⟨Or.inr h, by simp, fun a ha => ?_⟩
    rw [ha] at h
    cases h
    exact le_refl _
  | cons x l ih =>
    intro init b h
    cases init with
    | none =>
      rw [maxByTimeIn_cons_none] at h
      have hstep := ih _ b h
      have hx : x.timeIn ≤ b.timeIn := hstep.2.2 x rfl
      refine ⟨?_, ?_, fun a ha => by cases ha⟩
      · rcases hstep.1 with hm | he
        · exact Or.inl (List.mem_cons_of_mem x hm)
        · exact Or.inl ((Option.some_inj.1 he).symm ▸ List.mem_cons_self x l)
      · intro y hy
        rcases List.mem_cons.1 hy with rfl | hmem
        · exact hx
        · exact hstep.2.1 y hmem
    | some a =>
      rw [maxByTimeIn_cons_some] at h
      by_cases hlt : a.timeIn < x.timeIn
      · rw [if_pos hlt] at h
        have hstep := ih _ b h
        have hx : x.timeIn ≤ b.timeIn := hstep.2.2 x rfl
        refine ⟨?_, ?_, ?_⟩
        · rcases hstep.1 with hm | he
          · exact Or.inl (List.mem_cons_of_mem x hm)
          · exact Or.inl ((Option.some_inj.1 he).symm ▸ List.mem_cons_self x l)
        · intro y hy
          rcases List.mem_cons.1 hy with rfl | hmem
          · exact hx
          · exact hstep.2.1 y hmem
        · intro a' ha'
          cases ha'
          exact le_trans (le_of_lt hlt) hx
      · rw [if_neg hlt] at h
        have hstep := ih _ b h
        have ha : a.timeIn ≤ b.timeIn := hstep.2.2 a rfl
        refine ⟨?_, ?_, ?_⟩
        · rcases hstep.1 with hm | he
          · exact Or.inl (List.mem_cons_of_mem x hm)
          · exact Or.inr he
        · intro y hy
          rcases List.mem_cons.1 hy with rfl | hmem
          · exact le_trans (not_lt.1 hlt) ha
          · exact hstep.2.1 y hmem
        · intro a' ha'
          cases ha'
          exact ha

theorem maxByTimeIn_isSome_of_some (l : List Session) :
    ∀ a : Session, ∃ b, maxByTimeIn (some a) l = some b := by
  induction l with
  | nil => exact fun a => ⟨a, rfl⟩
  | cons x l ih =>
    intro a
    rw [maxByTimeIn_cons_some]
    by_cases hlt : a.timeIn < x.timeIn
    · rw [if_pos hlt]
      exact ih x
    · rw [if_neg hlt]
      exact ih a

theorem latestOpen_exists (db : DB) (aid : Nat) (s : Session)
    (hs : s ∈ openSessionsOf db aid) :
    ∃ b, latestOpen db aid = some b := by
  unfold latestOpen
  cases hl : openSessionsOf db aid with
  | nil => rw [hl] at hs; cases hs
  | cons x l =>
    rw [maxByTimeIn_cons_none]
    exact maxByTimeIn_isSome_of_some l x

/-! ## Preservation of the per-day open-session invariant -/

theorem Inv_mono (off : Int) {T T' : Time} {db : DB} (hT : T ≤ T')
    (hinv : Inv off T db) : Inv off T' db := by
  obtain ⟨hT0, hb, hcnt⟩ := hinv
  exact ⟨le_trans hT0 hT,
    fun s hs => ⟨(hb s hs).1, le_trans (hb s hs).2 hT⟩, hcnt⟩

theorem Inv_map_close (off : Int) {T T' : Time} (db : DB)
    (f : Session → Session) (hT : T ≤ T')
    (hacc : ∀ s, (f s).accountId = s.accountId)
    (htin : ∀ s, (f s).timeIn = s.timeIn)
    (hopen : ∀ s, (f s).isOpen = true → s.isOpen = true)
    (hinv : Inv off T db) :
    Inv off T' { db with sessions := db.sessions.map f } := by
  obtain ⟨hT0, hb, hcnt⟩ := hinv
  refine ⟨le_trans hT0 hT, ?_, ?_⟩
  · intro s hs
    rcases List.mem_map.1 hs with ⟨x, hx, rfl⟩
    rw [htin]
    exact ⟨(hb x hx).1, le_trans (hb x hx).2 hT⟩
  · intro aid d
    refine le_trans (countP_map_le f _ ?_ db.sessions) (hcnt aid d)
    intro s hp
    simp only [Bool.and_eq_true, beq_iff_eq] at hp ⊢
    refine ⟨⟨?_, hopen s hp.1.2⟩, ?_⟩
    · rw [← hacc]
      exact hp.1.1
    · rw [← htin]
      exact hp.2

theorem Inv_filter (off : Int) {T T' : Time} (db : DB) (p : Session → Bool)
    (hT : T ≤ T') (hinv : Inv off T db) :
    Inv off T' { db with sessions := db.sessions.filter p } := by
  obtain ⟨hT0, hb, hcnt⟩ := hinv
  refine ⟨le_trans hT0 hT, ?_, ?_⟩
  · intro s hs
    have hm := (List.mem_filter.1 hs).1
    exact ⟨(hb s hm).1, le_trans (hb s hm).2 hT⟩
  · intro aid d
    exact le_trans ((List.filter_sublist db.sessions).countP_le _)
      (hcnt aid d)

theorem no_open_today (off : Int) {T : Time} (db : DB) (aid : Nat)
    (now : Time) (hT : T ≤ now)
    (hb : ∀ s ∈ db.sessions, 0 ≤ s.timeIn ∧ s.timeIn ≤ T)
    (hguard : activeSameDay off db aid now = none) :
    openOnDayCount off db aid (localDate off now) = 0 := by
  unfold openOnDayCount
  rw [List.countP_eq_zero]
  intro s hs hp
  simp only [Bool.and_eq_true, beq_iff_eq] at hp
  obtain ⟨⟨h1, h2⟩, h3⟩ := hp
  have hmem : s ∈ openSessionsOf db aid := by
    unfold openSessionsOf
    rw [List.mem_filter]
    simp [hs, h1, h2]
  obtain ⟨b, hbdef⟩ := latestOpen_exists db aid s hmem
  have hspec := maxByTimeIn_spec _ _ _ hbdef
  have hub : s.timeIn ≤ b.timeIn := hspec.2.1 s hmem
  have hbmem : b ∈ openSessionsOf db aid := by
    rcases hspec.1 with hm | he
    · exact hm
    · cases he
  have hbsess : b ∈ db.sessions := (List.mem_filter.1 hbmem).1
  have hbday : localDate off b.timeIn ≠ localDate off now := by
    intro heq
    unfold activeSameDay at hguard
    rw [hbdef] at hguard
    simp [heq] at hguard
  apply hbday
  have l1 : localDate off s.timeIn ≤ localDate off b.timeIn :=
    localDate_mono off hub
  have l2 : localDate off b.timeIn ≤ localDate off now :=
    localDate_mono off (le_trans (hb b hbsess).2 hT)
  rw [h3] at l1
  exact le_antisymm l2 l1

theorem closeOpenSessions_inv (off : Int) {T : Time} (db : DB) (aid : Nat)
    (now : Time) (inval : Bool) (hT : T ≤ now) (hinv : Inv off T db) :
    Inv off now (closeOpenSessions db aid now inval) := by
  unfold closeOpenSessions
  refine Inv_map_close off db _ hT ?_ ?_ ?_ hinv
  · intro s
    dsimp only
    split <;> rfl
  · intro s
    dsimp only
    split <;> rfl
  · intro s h
    by_cases hc : (s.accountId == aid && s.isOpen) = true
    · have hc' := hc
      rw [Bool.and_eq_true] at hc'
      exact hc'.2
    · rw [if_neg hc] at h
      exact h

theorem punch_timeIn_inv (off : Int) {T : Time} (db : DB) (a : Account)
    (now : Time) (j : JobAssignment) (hT : T ≤ now) (hinv : Inv off T db)
    (hguard : activeSameDay off db a.id now = none) :
    Inv off now
      { db with
        sessions := db.sessions ++ [newSession db.nextId a.id now j]
        nextId := db.nextId + 1 } := by
  obtain ⟨hT0, hb, hcnt⟩ := hinv
  have h0now : (0 : Int) ≤ now := le_trans hT0 hT
  refine ⟨h0now, ?_, ?_⟩
  · intro s hs
    rcases List.mem_append.1 hs with hm | hm
    · exact ⟨(hb s hm).1, le_trans (hb s hm).2 hT⟩
    · have hnew : s = newSession db.nextId a.id now j := by simpa using hm
      subst hnew
      exact ⟨h0now, le_refl _⟩
  · intro aid d
    unfold openOnDayCount
    dsimp only
    rw [List.countP_append]
    by_cases hp : ((newSession db.nextId a.id now j).accountId == aid &&
        (newSession db.nextId a.id now j).isOpen &&
        (localDate off (newSession db.nextId a.id now j).timeIn == d)) = true
    · have hpa : a.id = aid ∧ localDate off now = d := by
        simpa [newSession, Session.isOpen, isOpenTO, Bool.and_eq_true,
          beq_iff_eq] using hp
      have hz : openOnDayCount off db a.id (localDate off now) = 0 :=
        no_open_today off db a.id now hT hb hguard
      rw [hpa.1, hpa.2] at hz
      unfold openOnDayCount at hz
      rw [hz]
      simp [List.countP_cons, hp]
    · have hle := hcnt aid d
      unfold openOnDayCount at hle
      have h1 : List.countP
          (fun s => s.accountId == aid && s.isOpen &&
            (localDate off s.timeIn == d))
          [newSession db.nextId a.id now j] = 0 := by
        simp only [List.countP_cons, List.countP_nil, Nat.zero_add]
        rw [if_neg hp]
      rw [h1]
      omega

theorem applyOp_preserves_inv (off : Int) {T : Time} (db : DB) (op : Op)
    (hinv : Inv off T db) (hsafe : opSafe op = true)
    (ht : ∀ t, opTime op = some t → T ≤ t) :
    Inv off ((opTime op).getD T) (applyOp off db op) := by
  cases op with
  | punchOp sid now force =>
    have hT : T ≤ now := ht now rfl
    show Inv off now (applyOp off db (Op.punchOp sid now force))
    simp only [applyOp, punch]
    cases hfa : findPunchAccount db sid with
    | none => exact Inv_mono off hT hinv
    | some a =>
      dsimp only
      by_cases hsusp : a.suspendedAt.isSome
      · rw [if_pos hsusp]
        exact Inv_mono off hT hinv
      · rw [if_neg hsusp]
        cases hact : activeSameDay off db a.id now with
        | some s =>
          dsimp only
          by_cases hdur : now - s.timeIn < 600
          · rw [if_pos hdur]
            cases force with
            | false => exact Inv_mono off hT hinv
            | true => exact closeOpenSessions_inv off db a.id now true hT hinv
          · rw [if_neg hdur]
            exact closeOpenSessions_inv off db a.id now false hT hinv
        | none =>
          cases hjob : currentJob db a.id with
          | none => exact Inv_mono off hT hinv
          | some j => exact punch_timeIn_inv off db a now j hT hinv hact
  | sweepOp runAt =>
    have hT : T ≤ runAt := ht runAt rfl
    show Inv off runAt (autoCloseSessions off db runAt)
    unfold autoCloseSessions
    refine Inv_map_close off db _ hT ?_ ?_ ?_ hinv
    · intro s
      unfold sweepClose
      split <;> rfl
    · intro s
      unfold sweepClose
      split <;> rfl
    · intro s h
      unfold sweepClose at h
      by_cases hc : s.isOpen = true ∧ s.timeIn < cutoffFor off runAt
      · exact hc.1
      · rw [if_neg hc] at h
        exact h
  | updateOp actId u now => simp [opSafe] at hsafe
  | bulkAdjustOp ids tIn tOut now => simp [opSafe] at hsafe
  | invalidateOp actId notes now =>
    have hT : T ≤ now := ht now rfl
    show Inv off now (applyOp off db (Op.invalidateOp actId notes now))
    simp only [applyOp, invalidateActivity]
    cases hfind : db.sessions.find? (fun s => s.id == actId) with
    | none => exact Inv_mono off hT hinv
    | some a =>
      dsimp only
      have hmem : a ∈ db.sessions := List.mem_of_find?_eq_some hfind
      have h0 : 0 ≤ a.timeIn := (hinv.2.1 a hmem).1
      by_cases hop : isOpenTO a.timeOut = true
      · rw [if_pos hop]
        refine Inv_map_close off db _ hT ?_ ?_ ?_ hinv
        · intro s
          dsimp only
          split <;> rfl
        · intro s
          dsimp only
          split <;> rfl
        · intro s h
          by_cases hc : (s.id == actId) = true
          · rw [if_pos hc] at h
            exfalso
            have hzero : a.timeIn + 30 * 60 = 0 := by
              simpa [Session.isOpen, isOpenTO] using h
            linarith
          · rw [if_neg hc] at h
            exact h
      · rw [if_neg hop]
        refine Inv_map_close off db _ hT ?_ ?_ ?_ hinv
        · intro s
          dsimp only
          split <;> rfl
        · intro s
          dsimp only
          split <;> rfl
        · intro s h
          by_cases hc : (s.id == actId) = true
          · rw [if_pos hc] at h
            exact h
          · rw [if_neg hc] at h
            exact h
  | revalidateOp actId now =>
    have hT : T ≤ now := ht now rfl
    show Inv off now (applyOp off db (Op.revalidateOp actId now))
    simp only [applyOp, revalidateActivity]
    cases hfind : db.sessions.find? (fun s => s.id == actId) with
    | none => exact Inv_mono off hT hinv
    | some a =>
      dsimp only
      refine Inv_map_close off db _ hT ?_ ?_ ?_ hinv
      · intro s
        dsimp only
        split <;> rfl
      · intro s
        dsimp only
        split <;> rfl
      · intro s h
        by_cases hc : (s.id == actId) = true
        · rw [if_pos hc] at h
          exact h
        · rw [if_neg hc] at h
          exact h
  | deleteOp actId =>
    show Inv off T (applyOp off db (Op.deleteOp actId))
    simp only [applyOp, deleteActivity]
    cases hfind : db.sessions.find? (fun s => s.id == actId) with
    | none => exact hinv
    | some a => exact Inv_filter off db _ (le_refl T) hinv
  | bulkCloseOp ids now =>
    have hT : T ≤ now := ht now rfl
    show Inv off now (bulkClose db ids now)
    unfold bulkClose
    by_cases hids : ids = []
    · rw [if_pos hids]
      exact Inv_mono off hT hinv
    · rw [if_neg hids]
      refine Inv_map_close off db _ hT ?_ ?_ ?_ hinv
      · intro s
        dsimp only
        split <;> rfl
      · intro s
        dsimp only
        split <;> rfl
      · intro s h
        by_cases hc : s.id ∈ ids ∧ s.isOpen = true
        · exact hc.2
        · rw [if_neg hc] at h
          exact h
  | bulkInvalidateOp ids notes now =>
    have hT : T ≤ now := ht now rfl
    show Inv off now (bulkInvalidate db ids notes now)
    unfold bulkInvalidate
    by_cases hids : ids = []
    · rw [if_pos hids]
      exact Inv_mono off hT hinv
    · rw [if_neg hids]
      have hmid : Inv off now
          { db with
            sessions := db.sessions.map fun s =>
              if s.id ∈ ids ∧ s.isOpen = true then
                { s with timeOut := some (s.timeIn + 30 * 60)
                         updatedAt := now }
              else s } := by
        refine Inv_map_close off db _ hT ?_ ?_ ?_ hinv
        · intro s
          dsimp only
          split <;> rfl
        · intro s
          dsimp only
          split <;> rfl
        · intro s h
          by_cases hc : s.id ∈ ids ∧ s.isOpen = true
          · exact hc.2
          · rw [if_neg hc] at h
            exact h
      refine Inv_map_close off _ _ (le_refl now) ?_ ?_ ?_ hmid
      · intro s
        dsimp only
        split <;> rfl
      · intro s
        dsimp only
        split <;> rfl
      · intro s h
        by_cases hc : s.id ∈ ids
        · rw [if_pos hc] at h
          exact h
        · rw [if_neg hc] at h
          exact h
  | bulkRevalidateOp ids now =>
    have hT : T ≤ now := ht now rfl
    show Inv off now (bulkRevalidate db ids now)
    unfold bulkRevalidate
    by_cases hids : ids = []
    · rw [if_pos hids]
      exact Inv_mono off hT hinv
    · rw [if_neg hids]
      refine Inv_map_close off db _ hT ?_ ?_ ?_ hinv
      · intro s
        dsimp only
        split <;> rfl
      · intro s
        dsimp only
        split <;> rfl
      · intro s h
        by_cases hc : s.id ∈ ids
        · rw [if_pos hc] at h
          exact h
        · rw [if_neg hc] at h
          exact h
  | bulkDeleteOp ids =>
    show Inv off T (bulkDelete db ids)
    unfold bulkDelete
    by_cases hids : ids = []
    · rw [if_pos hids]
      exact hinv
    · rw [if_neg hids]
      exact Inv_filter off db _ (le_refl T) hinv

theorem runOps_preserves_inv (off : Int) (ops : List Op) :
    ∀ (T : Time) (db : DB), Inv off T db → chronFrom T ops →
      (∀ op ∈ ops, opSafe op = true) →
      ∃ T', Inv off T' (runOps off db ops) := by
  induction ops with
  | nil =>
    intro T db hinv _ _
    exact ⟨T, hinv⟩
  | cons op rest ih =>
    intro T db hinv hchron hsafe
    have hop := hsafe op (List.mem_cons_self op rest)
    have hrest : ∀ o ∈ rest, opSafe o = true :=
      fun o ho => hsafe o (List.mem_cons_of_mem op ho)
    show ∃ T', Inv off T' (runOps off (applyOp off db op) rest)
    cases hot : opTime op with
    | none =>
      have hstep := applyOp_preserves_inv off db op hinv hop
        (fun t htt => by rw [hot] at htt; cases htt)
      rw [hot] at hstep
      have hch : chronFrom T rest := by
        have hc := hchron
        simp only [chronFrom] at hc
        rw [hot] at hc
        exact hc
      exact ih T _ hstep hch hrest
    | some t =>
      have hch : T ≤ t ∧ chronFrom t rest := by
        have hc := hchron
        simp only [chronFrom] at hc
        rw [hot] at hc
        exact hc
      have hstep := applyOp_preserves_inv off db op hinv hop
        (fun t' htt => by rw [hot] at htt; cases htt; exact hch.1)
      rw [hot] at hstep
      exact ih t _ hstep hch.2 hrest

/-- Reduction of `punch` once the account is resolved, unsuspended, and a
same-local-day active session has been found (the time-out path). -/
theorem punch_timeOut_eq (off : Int) (db : DB) (sid : String) (now : Time)
    (force : Bool) (a : Account) (s : Session)
    (ha : findPunchAccount db sid = some a)
    (hsusp : a.suspendedAt = none)
    (hact : activeSameDay off db a.id now = some s) :
    punch off db sid now force =
      if now - s.timeIn < 600 then
        (if force then .ok (.timeOut, closeOpenSessions db a.id now true)
         else .error .earlyTimeoutWarning)
      else .ok (.timeOut, closeOpenSessions db a.id now false) := by
  unfold punch
  rw [ha]
  dsimp only
  simp only [hsusp, Option.isSome_none, Bool.false_eq_true, if_false]
  rw [hact]
  dsimp only
  by_cases hdur : now - s.timeIn < 600
  · rw [if_pos hdur, if_pos hdur]
    cases force with
    | false => rfl
    | true => rfl
  · rw [if_neg hdur, if_neg hdur]

/-- Reduction of `punch` in the time-in path: no same-local-day active
session, job assignment present. -/
theorem punch_timeIn_eq (off : Int) (db : DB) (sid : String) (now : Time)
    (force : Bool) (a : Account) (j : JobAssignment)
    (ha : findPunchAccount db sid = some a)
    (hsusp : a.suspendedAt = none)
    (hact : activeSameDay off db a.id now = none)
    (hjob : currentJob db a.id = some j) :
    punch off db sid now force =
      .ok (.timeIn,
        { db with
          sessions := db.sessions ++ [newSession db.nextId a.id now j]
          nextId := db.nextId + 1 }) := by
  unfold punch
  rw [ha]
  dsimp only
  simp only [hsusp, Option.isSome_none, Bool.false_eq_true, if_false]
  rw [hact]
  dsimp only
  rw [hjob]

/-! ## Claim C1 -/

/-- **C1** counterexample: the at-most-one-open-session invariant fails on
the code.  From an empty store, a punch-in on local day 0 followed by a
punch-in on local day 1 — the stale day-0 session is discarded by the
strict day check, not closed — leaves account 1 with two sessions whose
`time_out` is absent at the same instant. -/
theorem punch_two_open_sessions_exist :
    openCount (runOps offMnl db0 opsTwoPunches) 1 = 2 ∧
    ¬ openCount (runOps offMnl db0 opsTwoPunches) 1 ≤ 1 := by decide

/-- **C1** (amended): after any chronologically ordered sequence of punch,
sweep, and maintenance operations other than the raw timestamp overwrites
(`update_activity`, `bulk_adjust`), every account has at most one open
session per local calendar day.  The global at-most-one-open bound is false:
stale open sessions from distinct earlier days may coexist with the current
day's open session (see the counterexample), each day contributing at most
one. -/
theorem open_sessions_per_day_le_one (off : Int) (T : Time) (db : DB)
    (ops : List Op) (aid : Nat) (d : Int)
    (hT0 : 0 ≤ T)
    (hb : ∀ s ∈ db.sessions, 0 ≤ s.timeIn ∧ s.timeIn ≤ T)
    (hcnt : ∀ a dd, openOnDayCount off db a dd ≤ 1)
    (hchron : chronFrom T ops)
    (hsafe : ∀ op ∈ ops, opSafe op = true) :
    openOnDayCount off (runOps off db ops) aid d ≤ 1 := by
  obtain ⟨T', hT'⟩ :=
    runOps_preserves_inv off ops T db ⟨hT0, hb, hcnt⟩ hchron hsafe
  exact hT'.2.2 aid d

/-- Witness for the amended C1 theorem: the two-punch scenario satisfies the
hypotheses with `T = 0`, and each local day indeed holds at most one open
session. -/
theorem open_sessions_per_day_le_one_witness :
    openOnDayCount offMnl (runOps offMnl db0 opsTwoPunches) 1 1 ≤ 1 :=
  open_sessions_per_day_le_one offMnl 0 db0 opsTwoPunches 1 1 (le_refl 0)
    (by intro s hs; simp [db0] at hs)
    (by intro a dd; simp [openOnDayCount, db0])
    (show (0 : Time) ≤ 0 ∧ ((0 : Time) ≤ 86400 ∧ True) from
      ⟨le_refl 0, by norm_num, trivial⟩)
    (by decide)

/-! ## Claim C2 -/

/-- Frame facts of the time-out `UPDATE`: row count unchanged; rows that are
closed or belong to another account are untouched; every open row of the
account ends with `time_out = now`. -/
theorem closeOpenSessions_frame (db : DB) (aid : Nat) (now : Time)
    (inval : Bool) :
    (closeOpenSessions db aid now inval).sessions.length =
      db.sessions.length ∧
    (∀ s ∈ db.sessions, s.accountId ≠ aid ∨ s.isOpen = false →
      s ∈ (closeOpenSessions db aid now inval).sessions) ∧
    (∀ s ∈ db.sessions, s.accountId = aid → s.isOpen = true →
      ∃ s' ∈ (closeOpenSessions db aid now inval).sessions,
        s'.id = s.id ∧ s'.accountId = s.accountId ∧
        s'.timeIn = s.timeIn ∧ s'.timeOut = some now) := by
  unfold closeOpenSessions
  refine ⟨List.length_map _ _, ?_, ?_⟩
  · intro s hs hcase
    have hcond : (s.accountId == aid && s.isOpen) = false := by
      rcases hcase with h | h
      · simp [h]
      · simp [h]
    exact List.mem_map.2 ⟨s, hs, by simp [hcond]⟩
  · intro s hs haid hopen
    have hcond : (s.accountId == aid && s.isOpen) = true := by
      simp [haid, hopen]
    refine ⟨_, List.mem_map.2 ⟨s, hs, rfl⟩, ?_⟩
    rw [if_pos hcond]
    exact ⟨rfl, rfl, rfl, rfl⟩

/-- **C2** counterexample: a successful punch-out does not touch exactly one
row.  After punch-ins on day 0 and day 1 both sessions are open; the
punch-out at instant 87600 (day 1, 20 minutes in) then writes
`time_out = 87600` into BOTH rows, closing the stale day-0 session that the
claim says is left untouched (open) until swept or invalidated. -/
theorem punch_out_modifies_stale_session :
    (runOps offMnl db0 opsTwoPunches).sessions.map
        (fun s => (s.id, s.timeOut)) = [(1, none), (2, none)] ∧
    (runOps offMnl db0 opsThreePunches).sessions.map
        (fun s => (s.id, s.timeOut)) =
      [(1, some 87600), (2, some 87600)] := by decide

/-- **C2** (amended): a successful punch-in adds exactly one row and leaves
every existing row unchanged.  A successful punch-out leaves closed rows and
other accounts' rows unchanged and writes `time_out = now` into every open
row of the account — the single same-day session in the normal case, but
also any stale open session from an earlier day (counterexample). -/
theorem punch_row_effects (off : Int) (db : DB) (sid : String) (now : Time)
    (force : Bool) (st : PunchStatus) (db' : DB)
    (h : punch off db sid now force = .ok (st, db')) :
    ∃ a, findPunchAccount db sid = some a ∧
      (st = .timeIn →
        db'.sessions.length = db.sessions.length + 1 ∧
        ∀ s ∈ db.sessions, s ∈ db'.sessions) ∧
      (st = .timeOut →
        db'.sessions.length = db.sessions.length ∧
        (∀ s ∈ db.sessions, s.accountId ≠ a.id ∨ s.isOpen = false →
          s ∈ db'.sessions) ∧
        (∀ s ∈ db.sessions, s.accountId = a.id → s.isOpen = true →
          ∃ s' ∈ db'.sessions, s'.id = s.id ∧ s'.accountId = s.accountId ∧
            s'.timeIn = s.timeIn ∧ s'.timeOut = some now)) := by
  unfold punch at h
  cases hfa : findPunchAccount db sid with
  | none =>
    rw [hfa] at h
    cases h
  | some a =>
    rw [hfa] at h
    dsimp only at h
    refine ⟨a, rfl, ?_⟩
    by_cases hsusp : a.suspendedAt.isSome
    · rw [if_pos hsusp] at h
      cases h
    · rw [if_neg hsusp] at h
      cases hact : activeSameDay off db a.id now with
      | some s =>
        rw [hact] at h
        dsimp only at h
        have hout : st = PunchStatus.timeOut ∧
            (db' = closeOpenSessions db a.id now true ∨
             db' = closeOpenSessions db a.id now false) := by
          by_cases hdur : now - s.timeIn < 600
          · rw [if_pos hdur] at h
            cases force with
            | false => cases h
            | true =>
              injection h with h1
              injection h1 with h2 h3
              exact ⟨h2.symm, Or.inl h3.symm⟩
          · rw [if_neg hdur] at h
            injection h with h1
            injection h1 with h2 h3
            exact ⟨h2.symm, Or.inr h3.symm⟩
        refine ⟨fun hti => ?_, fun _ => ?_⟩
        · rw [hout.1] at hti
          cases hti
        · rcases hout.2 with hdb | hdb <;>
            (subst hdb; exact (closeOpenSessions_frame db a.id now _).imp_right
              (fun hh => hh))
      | none =>
        rw [hact] at h
        dsimp only at h
        cases hjob : currentJob db a.id with
        | none =>
          rw [hjob] at h
          cases h
        | some j =>
          rw [hjob] at h
          injection h with h1
          injection h1 with h2 h3
          refine ⟨fun _ => ?_, fun hto => ?_⟩
          · rw [← h3]
            constructor
            · simp
            · intro s hs
              exact List.mem_append_left _ hs
          · rw [← h2] at hto
            cases hto

/-- Witness for the amended C2 theorem: the punch-out at 87600 against the
two-open-session store (day-0 and day-1 sessions). -/
theorem punch_row_effects_witness :
    ∃ a, findPunchAccount (runOps offMnl db0 opsTwoPunches) "S1" = some a ∧
      (PunchStatus.timeOut = PunchStatus.timeIn →
        (closeOpenSessions (runOps offMnl db0 opsTwoPunches) 1 87600
            false).sessions.length =
          (runOps offMnl db0 opsTwoPunches).sessions.length + 1 ∧
        ∀ s ∈ (runOps offMnl db0 opsTwoPunches).sessions,
          s ∈ (closeOpenSessions (runOps offMnl db0 opsTwoPunches) 1 87600
            false).sessions) ∧
      (PunchStatus.timeOut = PunchStatus.timeOut →
        (closeOpenSessions (runOps offMnl db0 opsTwoPunches) 1 87600
            false).sessions.length =
          (runOps offMnl db0 opsTwoPunches).sessions.length ∧
        (∀ s ∈ (runOps offMnl db0 opsTwoPunches).sessions,
          s.accountId ≠ a.id ∨ s.isOpen = false →
          s ∈ (closeOpenSessions (runOps offMnl db0 opsTwoPunches) 1 87600
            false).sessions) ∧
        (∀ s ∈ (runOps offMnl db0 opsTwoPunches).sessions,
          s.accountId = a.id → s.isOpen = true →
          ∃ s' ∈ (closeOpenSessions (runOps offMnl db0 opsTwoPunches) 1 87600
              false).sessions,
            s'.id = s.id ∧ s'.accountId = s.accountId ∧
            s'.timeIn = s.timeIn ∧ s'.timeOut = some 87600)) :=
  punch_row_effects offMnl (runOps offMnl db0 opsTwoPunches) "S1" 87600 false
    PunchStatus.timeOut
    (closeOpenSessions (runOps offMnl db0 opsTwoPunches) 1 87600 false)
    rfl

/-! ## Claim C3 -/

/-- **C3**: a punch against a same-local-day open session less than 10
minutes old with `forceEarlyTimeout = false` fails with the 409
`EARLY_TIMEOUT_WARNING` raised before any write, so the stored state is
unchanged: the session stays open and no row is written. -/
theorem punch_early_timeout_rejected (off : Int) (db : DB) (sid : String)
    (now : Time) (a : Account) (s : Session)
    (ha : findPunchAccount db sid = some a)
    (hsusp : a.suspendedAt = none)
    (hact : activeSameDay off db a.id now = some s)
    (hdur : now - s.timeIn < 600) :
    punch off db sid now false = .error .earlyTimeoutWarning ∧
    applyOp off db (.punchOp sid now false) = db := by
  have hp : punch off db sid now false = .error .earlyTimeoutWarning := by
    rw [punch_timeOut_eq off db sid now false a s ha hsusp hact,
      if_pos hdur, if_neg Bool.false_ne_true]
  refine ⟨hp, ?_⟩
  simp only [applyOp, hp]

/-- Witness for C3: the 5-minute punch-out attempt at instant 86700 against
`dbOpen` (session opened at 86400) is rejected and the store is unchanged. -/
theorem punch_early_timeout_rejected_witness :
    punch offMnl dbOpen "S1" 86700 false =
      .error .earlyTimeoutWarning ∧
    applyOp offMnl dbOpen (.punchOp "S1" 86700 false) = dbOpen :=
  punch_early_timeout_rejected offMnl dbOpen "S1" 86700 acct1 sessDay1
    (by decide) rfl (by decide) (by decide)

/-! ## Claim C4 -/

/-- **C4** counterexample: the forced early time-out does close and
invalidate in one update, but the stored `invalidation_notes` value is the
literal "Timed out too early (< 10 mins)", not "early timeout" as the claim
states. -/
theorem punch_force_early_notes_differ :
    punch offMnl dbOpen "S1" 86700 true =
      .ok (.timeOut, closeOpenSessions dbOpen 1 86700 true) ∧
    (closeOpenSessions dbOpen 1 86700 true).sessions.map
        (fun s => s.invalidationNotes) =
      [some "Timed out too early (< 10 mins)"] ∧
    ("Timed out too early (< 10 mins)" : String) ≠ "early timeout" :=
  ⟨rfl, by decide, by decide⟩

/-- **C4** (amended): a forced punch-out of a same-local-day session under
10 minutes succeeds with a single update that both closes and invalidates:
every open session of the account — in particular the active same-day one —
ends with `time_out = now`, `invalidated_at = now` and `invalidation_notes`
equal to "Timed out too early (< 10 mins)" (the code's literal, which the
spec paraphrases as "early timeout"). -/
theorem punch_force_early_invalidates (off : Int) (db : DB) (sid : String)
    (now : Time) (a : Account) (s : Session)
    (ha : findPunchAccount db sid = some a)
    (hsusp : a.suspendedAt = none)
    (hact : activeSameDay off db a.id now = some s)
    (hdur : now - s.timeIn < 600) :
    punch off db sid now true =
      .ok (.timeOut, closeOpenSessions db a.id now true) ∧
    ∀ x ∈ db.sessions, x.accountId = a.id → x.isOpen = true →
      { x with
        timeOut := some now
        updatedAt := now
        invalidatedAt := some now
        invalidationNotes := some earlyTimeoutNotes } ∈
        (closeOpenSessions db a.id now true).sessions := by
  refine ⟨?_, ?_⟩
  · rw [punch_timeOut_eq off db sid now true a s ha hsusp hact,
      if_pos hdur, if_pos rfl]
  · intro x hx haid hopen
    have hcond : (x.accountId == a.id && x.isOpen) = true := by
      simp [haid, hopen]
    unfold closeOpenSessions
    exact List.mem_map.2 ⟨x, hx, by rw [if_pos hcond, if_pos rfl, if_pos rfl]⟩

/-- Witness for the amended C4 theorem: the forced 5-minute punch-out at
86700 against `dbOpen`. -/
theorem punch_force_early_invalidates_witness :
    (punch offMnl dbOpen "S1" 86700 true =
      .ok (.timeOut, closeOpenSessions dbOpen 1 86700 true) ∧
    ∀ x ∈ dbOpen.sessions, x.accountId = 1 → x.isOpen = true →
      { x with
        timeOut := some 86700
        updatedAt := 86700
        invalidatedAt := some 86700
        invalidationNotes := some earlyTimeoutNotes } ∈
        (closeOpenSessions dbOpen 1 86700 true).sessions) :=
  punch_force_early_invalidates offMnl dbOpen "S1" 86700 acct1 sessDay1
    (by decide) rfl (by decide) (by decide)

/-! ## Claim C5 -/

/-- **C5**: the sweep closes every open session (NULL or legacy-sentinel
`time_out`) whose `time_in` is before the 23:00-local cutoff, stamping
`time_out = cutoff` (the computed cutoff instant, not the run instant) and
`properties.auto_closed = true`, and leaves untouched every open session
whose `time_in` is at or after the cutoff (and every already-closed row). -/
theorem sweep_closes_stale_only (off : Int) (db : DB) (runAt : Time)
    (s : Session) (hs : s ∈ db.sessions) :
    (s.isOpen = true → s.timeIn < cutoffFor off runAt →
      { s with
        timeOut := some (cutoffFor off runAt)
        updatedAt := runAt
        autoClosed := true } ∈ (autoCloseSessions off db runAt).sessions) ∧
    (s.isOpen = true → cutoffFor off runAt ≤ s.timeIn →
      s ∈ (autoCloseSessions off db runAt).sessions) ∧
    (s.isOpen = false → s ∈ (autoCloseSessions off db runAt).sessions) := by
  unfold autoCloseSessions
  refine ⟨?_, ?_, ?_⟩
  · intro ho hlt
    refine List.mem_map.2 ⟨s, hs, ?_⟩
    unfold sweepClose
    rw [if_pos ⟨ho, hlt⟩]
  · intro ho hge
    refine List.mem_map.2 ⟨s, hs, ?_⟩
    unfold sweepClose
    rw [if_neg (fun hc => absurd hc.2 (not_lt.2 hge))]
  · intro ho
    refine List.mem_map.2 ⟨s, hs, ?_⟩
    unfold sweepClose
    rw [if_neg (fun hc => by rw [ho] at hc; cases hc.1)]

/-- Witness for C5: the 22:50-local session (instant 53400) swept by a run
at 57000 (after the 54000 cutoff) is closed at 54000 — the cutoff, not the
run instant — while the store `dbOpen` holding a session opened at 86400
(23:20 local, past that cutoff) is untouched by the same-cutoff sweep. -/
theorem sweep_closes_stale_only_witness :
    cutoffFor offMnl 57000 = 54000 ∧ (54000 : Time) ≠ 57000 ∧
    ({ newSession 1 1 53400
          { accountId := 1, jobId := 7, jobName := "Helper" } with
        timeOut := some (cutoffFor offMnl 57000)
        updatedAt := 57000
        autoClosed := true } ∈
      (autoCloseSessions offMnl dbStale 57000).sessions) ∧
    sessDay1 ∈ (autoCloseSessions offMnl dbOpen 54500).sessions :=
  ⟨by decide, by decide,
    (sweep_closes_stale_only offMnl dbStale 57000
      (newSession 1 1 53400 { accountId := 1, jobId := 7, jobName := "Helper" })
      (by decide)).1 (by decide) (by decide),
    (sweep_closes_stale_only offMnl dbOpen 54500 sessDay1
      (by decide)).2.1 (by decide) (by decide)⟩

/-! ## Claim C6 -/

theorem find?_of_filter_eq_singleton {p : Session → Bool} :
    ∀ (l : List Session) (s : Session), l.filter p = [s] →
      l.find? p = some s := by
  intro l
  induction l with
  | nil =>
    intro s h
    simp at h
  | cons a l ih =>
    intro s h
    by_cases hpa : p a = true
    · rw [List.filter_cons_of_pos hpa] at h
      injection h with h1 h2
      rw [List.find?_cons_of_pos _ hpa, h1]
    · rw [List.filter_cons_of_neg hpa] at h
      rw [List.find?_cons_of_neg _ hpa]
      exact ih s h

/-- **C6**: invalidation always yields a closed record.  A single
`invalidate` of a still-open session (NULL or legacy-sentinel `time_out`)
auto-fills `time_out = time_in + 30 minutes` in the same update as the
invalidation columns; `bulkInvalidate` over a mixed id set auto-fills
`time_out = time_in + 30 minutes` only for the still-open rows before
invalidating all of them, so every listed record ends up closed with a
computable duration. -/
theorem invalidate_autofills_open (db : DB) (actId : Nat) (notes : String)
    (now : Time) (ids : List Nat) (s : Session) :
    (db.sessions.filter (fun x => x.id == actId) = [s] →
      isOpenTO s.timeOut = true →
      ∃ db', invalidateActivity db actId notes now = .ok db' ∧
        { s with
          invalidatedAt := some now
          invalidationNotes := some notes
          timeOut := some (s.timeIn + 30 * 60)
          updatedAt := now } ∈ db'.sessions) ∧
    (s ∈ db.sessions → s.id ∈ ids →
      ∃ s' ∈ (bulkInvalidate db ids notes now).sessions,
        s'.id = s.id ∧ s'.timeIn = s.timeIn ∧
        s'.invalidatedAt = some now ∧ s'.invalidationNotes = some notes ∧
        (s.isOpen = true → s'.timeOut = some (s.timeIn + 30 * 60)) ∧
        (s.isOpen = false → s'.timeOut = s.timeOut) ∧
        (0 ≤ s.timeIn → s'.isOpen = false)) := by
  constructor
  · intro hfilt hopen
    have hfind : db.sessions.find? (fun x => x.id == actId) = some s :=
      find?_of_filter_eq_singleton db.sessions s hfilt
    have hsfilt : s ∈ db.sessions.filter (fun x => x.id == actId) := by
      rw [hfilt]
      exact List.mem_cons_self _ _
    have hsmem : s ∈ db.sessions := (List.mem_filter.1 hsfilt).1
    have hsid : (s.id == actId) = true := (List.mem_filter.1 hsfilt).2
    refine ⟨{ db with
        sessions := db.sessions.map fun x =>
          if x.id == actId then
            { x with
              invalidatedAt := some now
              invalidationNotes := some notes
              timeOut := some (s.timeIn + 30 * 60)
              updatedAt := now }
          else x }, ?_, ?_⟩
    · unfold invalidateActivity
      rw [hfind]
      dsimp only
      rw [if_pos hopen]
    · exact List.mem_map.2 ⟨s, hsmem, by rw [if_pos hsid]⟩
  · intro hsmem hsid
    have hne : ids ≠ [] := fun he => by rw [he] at hsid; cases hsid
    unfold bulkInvalidate
    rw [if_neg hne]
    by_cases hopen : s.isOpen = true
    · refine ⟨{ s with
          timeOut := some (s.timeIn + 30 * 60)
          updatedAt := now
          invalidatedAt := some now
          invalidationNotes := some notes }, ?_, ?_⟩
      · refine List.mem_map.2 ⟨{ s with
            timeOut := some (s.timeIn + 30 * 60), updatedAt := now },
          List.mem_map.2 ⟨s, hsmem, if_pos ⟨hsid, hopen⟩⟩, ?_⟩
        rw [if_pos hsid]
      · refine ⟨rfl, rfl, rfl, rfl, fun _ => rfl, fun hcl => ?_, fun h0 => ?_⟩
        · rw [hopen] at hcl
          cases hcl
        · have hne0 : s.timeIn + 30 * 60 ≠ 0 := by linarith
          simp only [Session.isOpen, isOpenTO]
          exact beq_eq_false_iff_ne.2 hne0
    · refine ⟨{ s with
          invalidatedAt := some now
          invalidationNotes := some notes
          updatedAt := now }, ?_, ?_⟩
      · refine List.mem_map.2 ⟨s,
          List.mem_map.2 ⟨s, hsmem, if_neg (fun hc => hopen hc.2)⟩, ?_⟩
        rw [if_pos hsid]
      · refine ⟨rfl, rfl, rfl, rfl, fun ho => absurd ho hopen,
          fun _ => rfl, fun _ => ?_⟩
        exact Bool.eq_false_iff.2 hopen

/-- Witness for C6: the mixed store `dbMixed` (closed session id 1, open
session id 2): single invalidation of the open id 2 auto-fills
`time_out = 4000 + 1800`, and `bulkInvalidate [1, 2]` closes only id 2 while
invalidating both. -/
theorem invalidate_autofills_open_witness :
    (∃ db', invalidateActivity dbMixed 2 "bad" 9000 = .ok db' ∧
      { sessOpen2 with
        invalidatedAt := some 9000
        invalidationNotes := some "bad"
        timeOut := some (sessOpen2.timeIn + 30 * 60)
        updatedAt := 9000 } ∈ db'.sessions) ∧
    (∃ s' ∈ (bulkInvalidate dbMixed [1, 2] "bad" 9000).sessions,
      s'.id = sessClosed.id ∧ s'.timeIn = sessClosed.timeIn ∧
      s'.invalidatedAt = some 9000 ∧ s'.invalidationNotes = some "bad" ∧
      (sessClosed.isOpen = true → s'.timeOut = some (sessClosed.timeIn + 30 * 60)) ∧
      (sessClosed.isOpen = false → s'.timeOut = sessClosed.timeOut) ∧
      (0 ≤ sessClosed.timeIn → s'.isOpen = false)) :=
  ⟨(invalidate_autofills_open dbMixed 2 "bad" 9000 [1, 2] sessOpen2).1
      (by decide) (by decide),
    (invalidate_autofills_open dbMixed 1 "bad" 9000 [1, 2] sessClosed).2
      (by decide) (by decide)⟩

/-! ## Claim C7 -/

theorem durOK_of_some {s : Session} {k : Time} (hk : s.timeOut = some k)
    (hle : s.timeIn ≤ k) : durOK s := by
  intro t ht _
  rw [hk] at ht
  rw [← Option.some_inj.1 ht]
  exact hle

theorem durOK_of_none {s : Session} (hk : s.timeOut = none) : durOK s := by
  intro t ht
  rw [hk] at ht
  cases ht

/-- **C7** counterexample: `update_activity` and `bulk_adjust` apply the
caller's timestamps with no temporal-ordering validation: overwriting
`time_out` with instant 500, earlier than the stored `time_in = 1000`,
succeeds in both endpoints and yields a session with
`time_out < time_in`. -/
theorem update_adjust_break_time_order :
    (updateActivity dbAdj 1 updEarlyOut 5000).toOption.map
        (fun d => d.sessions.map fun s => (s.timeIn, s.timeOut)) =
      some [((1000 : Time), some (500 : Time))] ∧
    (bulkAdjust dbAdj [1] none (some 500) 5000).toOption.map
        (fun d => d.sessions.map fun s => (s.timeIn, s.timeOut)) =
      some [((1000 : Time), some (500 : Time))] ∧
    ((500 : Time) < 1000) := by decide

/-- **C7** (amended): the sweep, bulk invalidation, and single invalidation
of a uniquely-identified row all preserve the ordering invariant
`time_out ≥ time_in` (for non-sentinel `time_out`); `update_activity` and
`bulk_adjust`, by contrast, overwrite timestamps without validation and can
produce `time_out < time_in` (counterexample). -/
theorem sweep_invalidate_preserve_time_order (off : Int) (db : DB)
    (runAt now : Time) (ids : List Nat) (actId : Nat) (notes : String)
    (t : Session) (hdb : ∀ s ∈ db.sessions, durOK s) :
    (∀ s ∈ (autoCloseSessions off db runAt).sessions, durOK s) ∧
    (∀ s ∈ (bulkInvalidate db ids notes now).sessions, durOK s) ∧
    (db.sessions.filter (fun x => x.id == actId) = [t] →
      ∀ db', invalidateActivity db actId notes now = .ok db' →
        ∀ s ∈ db'.sessions, durOK s) := by
  refine ⟨?_, ?_, ?_⟩
  · intro s' hs'
    rcases List.mem_map.1 hs' with ⟨x, hx, rfl⟩
    unfold sweepClose
    by_cases hc : x.isOpen = true ∧ x.timeIn < cutoffFor off runAt
    · rw [if_pos hc]
      exact durOK_of_some rfl (le_of_lt hc.2)
    · rw [if_neg hc]
      exact hdb x hx
  · by_cases hids : ids = []
    · unfold bulkInvalidate
      rw [if_pos hids]
      exact hdb
    · unfold bulkInvalidate
      rw [if_neg hids]
      intro s' hs'
      rcases List.mem_map.1 hs' with ⟨y, hy, rfl⟩
      rcases List.mem_map.1 hy with ⟨x, hx, rfl⟩
      by_cases hc1 : x.id ∈ ids ∧ x.isOpen = true
      · rw [if_pos hc1]
        dsimp only
        rw [if_pos hc1.1]
        exact durOK_of_some rfl (by linarith)
      · rw [if_neg hc1]
        by_cases hc2 : x.id ∈ ids
        · rw [if_pos hc2]
          intro tt htt hne
          exact hdb x hx tt htt hne
        · rw [if_neg hc2]
          exact hdb x hx
  · intro hfilt db' hok
    have hfind : db.sessions.find? (fun x => x.id == actId) = some t :=
      find?_of_filter_eq_singleton db.sessions t hfilt
    unfold invalidateActivity at hok
    rw [hfind] at hok
    dsimp only at hok
    by_cases hto : isOpenTO t.timeOut = true
    · rw [if_pos hto] at hok
      injection hok with hok1
      subst hok1
      intro s' hs'
      rcases List.mem_map.1 hs' with ⟨x, hx, rfl⟩
      by_cases hc : (x.id == actId) = true
      · rw [if_pos hc]
        have hxt : x = t := by
          have hxf : x ∈ db.sessions.filter (fun y => y.id == actId) :=
            List.mem_filter.2 ⟨hx, hc⟩
          rw [hfilt] at hxf
          exact List.mem_singleton.1 hxf
        subst hxt
        exact durOK_of_some rfl (by linarith)
      · rw [if_neg hc]
        exact hdb x hx
    · rw [if_neg hto] at hok
      injection hok with hok1
      subst hok1
      intro s' hs'
      rcases List.mem_map.1 hs' with ⟨x, hx, rfl⟩
      by_cases hc : (x.id == actId) = true
      · rw [if_pos hc]
        intro tt htt hne
        exact hdb x hx tt htt hne
      · rw [if_neg hc]
        exact hdb x hx

/-- Witness for the amended C7 theorem at the mixed store (one closed, one
open session), with the open session id 2 as the invalidation target. -/
theorem sweep_invalidate_preserve_time_order_witness :
    (∀ s ∈ (autoCloseSessions offMnl dbMixed 57000).sessions, durOK s) ∧
    (∀ s ∈ (bulkInvalidate dbMixed [1, 2] "bad" 9000).sessions, durOK s) ∧
    (dbMixed.sessions.filter (fun x => x.id == 2) = [sessOpen2] →
      ∀ db', invalidateActivity dbMixed 2 "bad" 9000 = .ok db' →
        ∀ s ∈ db'.sessions, durOK s) :=
  sweep_invalidate_preserve_time_order offMnl dbMixed 57000 9000 [1, 2] 2
    "bad" sessOpen2
    (by
      intro s hs
      rcases List.mem_cons.1 hs with rfl | hs2
      · exact durOK_of_some rfl (by norm_num [sessClosed])
      · rw [List.mem_singleton.1 hs2]
        exact durOK_of_none rfl)

/-! ## Claim C8 -/

/-- **C8** counterexample: the summary aggregation has no `invalidated_at`
condition — the invalidated 60-minute session of `dbInvalidated` still
contributes its full 60 minutes to the account's summary total (while the
leaderboard correctly reports 0), so an invalidated session does NOT add
nothing to every aggregated minute count. -/
theorem summary_counts_invalidated :
    sessInvalid.invalidatedAt = some 5000 ∧
    summaryTotalMinutes dbInvalidated 1 7200 = 60 ∧
    lbTotalMinutes dbInvalidated 1 = 0 := by decide

/-- **C8** (amended): in the leaderboard aggregation the join condition
`ja.invalidated_at IS NULL` makes invalidated sessions contribute nothing —
prepending one changes no account's total — whereas the summary aggregation
has no invalidation filter and does count them (counterexample). -/
theorem leaderboard_excludes_invalidated (db : DB) (aid : Nat) (s : Session)
    (hinv : s.invalidatedAt.isSome = true) :
    lbTotalMinutes { db with sessions := s :: db.sessions } aid =
      lbTotalMinutes db aid := by
  cases hsa : s.invalidatedAt with
  | none =>
    rw [hsa] at hinv
    cases hinv
  | some tv =>
    unfold lbTotalMinutes
    rw [List.filter_cons_of_neg (by simp [hsa])]

/-- Witness for the amended C8 theorem: prepending the invalidated session
to the single-closed-session store leaves account 1's leaderboard total
unchanged. -/
theorem leaderboard_excludes_invalidated_witness :
    lbTotalMinutes { dbAdj with sessions := sessInvalid :: dbAdj.sessions }
        1 = lbTotalMinutes dbAdj 1 :=
  leaderboard_excludes_invalidated dbAdj 1 sessInvalid (by decide)

/-! ## Claim C9 -/

theorem clampLimit_eq (limit : Int) :
    clampLimit limit =
      if 100 < limit then 100 else if limit < 1 then 10 else limit := by
  unfold clampLimit
  by_cases h1 : limit > 100
  · simp only [h1, if_true, if_pos h1]
    norm_num
  · simp only [h1, if_false, if_neg h1]

/-- **C9**: the leaderboard `limit` is clamped, never rejected: the clamp is
total (no error path), any limit above the hard max 100 behaves as 100, any
limit below the minimum 1 (e.g. 0) is clamped up (the code's floor is 10),
and the result always lies between 1 and 100. -/
theorem leaderboard_limit_clamped (limit : Int) :
    1 ≤ clampLimit limit ∧ clampLimit limit ≤ 100 ∧
    (100 < limit → clampLimit limit = 100) ∧
    (limit < 1 → clampLimit limit = 10 ∧ limit < clampLimit limit) := by
  rw [clampLimit_eq]
  split_ifs with h1 h2
  · refine ⟨by norm_num, le_refl _, fun _ => rfl, fun h => absurd h (by linarith)⟩
  · refine ⟨by norm_num, by norm_num, fun h => absurd h h1, fun _ => ⟨rfl, by linarith⟩⟩
  · refine ⟨by linarith, by linarith, fun h => absurd h h1, fun h => absurd h h2⟩

/-- Witness for C9: `limit = 500` clamps to 100 and `limit = 0` clamps up
to 10. -/
theorem leaderboard_limit_clamped_witness :
    clampLimit 500 = 100 ∧ clampLimit 0 = 10 ∧ 1 ≤ clampLimit 0 :=
  ⟨(leaderboard_limit_clamped 500).2.2.1 (by norm_num),
    ((leaderboard_limit_clamped 0).2.2.2 (by norm_num)).1,
    (leaderboard_limit_clamped 0).1⟩

/-! ## Claim C10 -/

/-- **C10**: the time-out path never consults the job-assignment table:
with a same-local-day open session at least 10 minutes old, `punch`
succeeds as a time-out whatever `db.jobs` contains (the `AccountJobless`
check only runs on the time-in path), so losing one's job mid-session never
prevents punching out. -/
theorem punch_out_needs_no_job (off : Int) (db : DB) (sid : String)
    (now : Time) (force : Bool) (a : Account) (s : Session)
    (ha : findPunchAccount db sid = some a)
    (hsusp : a.suspendedAt = none)
    (hact : activeSameDay off db a.id now = some s)
    (hdur : 600 ≤ now - s.timeIn) :
    punch off db sid now force =
      .ok (.timeOut, closeOpenSessions db a.id now false) := by
  rw [punch_timeOut_eq off db sid now force a s ha hsusp hact,
    if_neg (not_lt.2 hdur)]

/-- Witness for C10: `dbJobless` has an empty job-assignment table, yet the
20-minute punch-out at 87600 succeeds as a time-out. -/
theorem punch_out_needs_no_job_witness :
    dbJobless.jobs = [] ∧
    punch offMnl dbJobless "S1" 87600 false =
      .ok (.timeOut, closeOpenSessions dbJobless 1 87600 false) :=
  ⟨rfl, punch_out_needs_no_job offMnl dbJobless "S1" 87600 false acct1
    sessDay1 (by decide) rfl (by decide) (by decide)⟩

end Attendance
